import Mathlib

/-!
Verification of the Chatty server authorization layer: a shallow embedding of
the JWT authentication context, the per-entity authorization logic
(server/data/logic.js), the login mutation and the subscription filter
(server/data/resolvers.js, server/index.js), with theorems about their
access-control behaviour.

The relational store (sequelize models User, Group, Message, the GroupUser
membership join table, the friends self-association and the lastRead
association) is embedded as explicit lists of rows.  Promise chains are
embedded as `Except` values: `Promise.reject(msg)` becomes
`.error (.rejection msg)`, and a JavaScript runtime TypeError raised by
dereferencing a `null` query result becomes `.error .typeError`.
-/

namespace Chatty

/-- A row of the User table.  `version` is the token-version counter added in
step 7.10 (incremented on password change); `jwt` is the token string field
attached after login/signup. -/
structure UserRec where
  id : Nat
  email : String
  username : String
  password : String
  version : Nat
  jwt : String
deriving Repr, DecidableEq

/-- A row of the Group table. -/
structure GroupRec where
  id : Nat
  name : String
deriving Repr, DecidableEq

/-- A row of the Message table. -/
structure MessageRec where
  id : Nat
  userId : Nat
  groupId : Nat
  text : String
deriving Repr, DecidableEq

/-- The relational store: lists of rows plus autoincrement counters.
`memberships` holds (userId, groupId) rows of the GroupUser join table,
`friendships` holds (userId, friendId) rows of the friends self-association,
`lastReads` holds (userId, messageId) rows of the lastRead association. -/
structure DB where
  users : List UserRec
  groups : List GroupRec
  memberships : List (Nat × Nat)
  friendships : List (Nat × Nat)
  messages : List MessageRec
  lastReads : List (Nat × Nat)
  nextGroupId : Nat
  nextMessageId : Nat
deriving Repr, DecidableEq

/-- Decoded JWT payload: the claims signed by `jwt.sign` in login/signup
(step 7.10 shape: id, email, version). -/
structure Claims where
  id : Nat
  email : String
  version : Nat
deriving Repr, DecidableEq

/-- The GraphQL context object: its `user` field is the resolved value of the
`ctx.user` promise (a User row, or null). -/
structure Ctx where
  user : Option UserRec
deriving Repr, DecidableEq

/-- Outcome of a promise chain: a rejection carrying the reject message, or a
runtime TypeError from dereferencing null. -/
inductive JsErr where
  | rejection (msg : String)
  | typeError
deriving Repr, DecidableEq

/-- The rejection value used throughout logic.js. -/
def unauthorized : JsErr := .rejection "Unauthorized"

/-- logic.js getAuthenticatedUser: rejects with Unauthorized when `ctx.user`
resolves to null, otherwise yields the user. -/
def getAuthenticatedUser (ctx : Ctx) : Except JsErr UserRec :=
  match ctx.user with
  | none => .error unauthorized
  | some u => .ok u

/-- User.findOne where id and version both match: the credential-store lookup
performed by the context builder after step 7.10. -/
def findByIdAndVersion (db : DB) (i v : Nat) : Option UserRec :=
  db.users.find? (fun u => u.id == i && u.version == v)

/-- Increment the token-version of the user with the given id (the effect of a
password change on the User row). -/
def incrementVersion (db : DB) (uid : Nat) : DB :=
  { db with
    users := db.users.map (fun u =>
      if u.id == uid then { u with version := u.version + 1 } else u) }

/-- The claims `login` signs into a token for a user (step 7.10: id, email and
current version). -/
def mintClaims (u : UserRec) : Claims :=
  { id := u.id, email := u.email, version := u.version }

/-- The graphqlExpress context of server/index.js (step 7.10): express-jwt
decodes the bearer token into `req.user` (absent when no token is presented),
and the context `user` promise is `User.findOne` by (id, version), or a
promise resolving null when no token was presented. -/
def buildRequestContext (db : DB) (reqUser : Option Claims) : Ctx :=
  match reqUser with
  | none => { user := none }
  | some c => { user := findByIdAndVersion db c.id c.version }

/-- The SubscriptionServer onConnect of server/index.js (step 7.11): no token
in the connection params rejects with No Token; otherwise the verified claims
drive a findOne by (id, version), and a null result rejects with No User.  A
rejection refuses the WebSocket connection; success yields the connection
context holding the user promise. -/
def onConnect (db : DB) (connectionParams : Option Claims) : Except String Ctx :=
  match connectionParams with
  | none => .error "No Token"
  | some c =>
    match findByIdAndVersion db c.id c.version with
    | some u => .ok { user := some u }
    | none => .error "No User"

/-! ## Membership and association lookups (sequelize query shapes) -/

/-- user.getGroups with a where clause `id: groupId`: the group rows the user
is joined to through GroupUser whose id equals the given id. -/
def getGroupsWhereId (db : DB) (uid gid : Nat) : List GroupRec :=
  db.groups.filter (fun g => db.memberships.contains (uid, g.id) && g.id == gid)

/-- user.getGroups with a where clause `id: in ids`: the group rows the user
is joined to through GroupUser whose id is among the given ids. -/
def getGroupsWhereIdIn (db : DB) (uid : Nat) (ids : List Nat) : List GroupRec :=
  db.groups.filter (fun g => db.memberships.contains (uid, g.id) && ids.contains g.id)

/-- Group.findOne by id including the User model restricted to the caller:
yields the group row only when the group exists and the caller is among its
members, null otherwise. -/
def findGroupWithUser (db : DB) (gid uid : Nat) : Option GroupRec :=
  db.groups.find? (fun g => g.id == gid && db.memberships.contains (uid, g.id))

/-- The membership predicate: some stored group has this id and a GroupUser
row joins the user to it. -/
def isMember (db : DB) (uid gid : Nat) : Bool :=
  db.groups.any (fun g => g.id == gid && db.memberships.contains (uid, g.id))

/-- user.getFriends: the user rows joined through the friends association. -/
def getFriends (db : DB) (uid : Nat) : List UserRec :=
  db.users.filter (fun u => db.friendships.contains (uid, u.id))

/-- user.getFriends with a where clause `id: in userIds`. -/
def getFriendsWhereIdIn (db : DB) (uid : Nat) (userIds : List Nat) : List UserRec :=
  db.users.filter (fun u => db.friendships.contains (uid, u.id) && userIds.contains u.id)

/-- user.getGroups with no where clause. -/
def getGroupsOf (db : DB) (uid : Nat) : List GroupRec :=
  db.groups.filter (fun g => db.memberships.contains (uid, g.id))

/-- Message.findAll with a where clause `userId`. -/
def getMessagesOfUser (db : DB) (uid : Nat) : List MessageRec :=
  db.messages.filter (fun m => m.userId == uid)

/-- Does a message row with this id belong to this group (used by the
getLastRead where clause on groupId). -/
def msgInGroup (db : DB) (mid gid : Nat) : Bool :=
  db.messages.any (fun m => m.id == mid && m.groupId == gid)

/-- JavaScript truthiness of an optional integer argument (absent and 0 are
falsy). -/
def truthy : Option Nat → Bool
  | none => false
  | some n => !(n == 0)

/-! ## logic.js: messageLogic, groupLogic, userLogic, subscriptionLogic -/

/-- messageLogic.createMessage: gate on an authenticated user, check the
target group is among the user groups, then Message.create with the
caller id; an empty group lookup rejects with Unauthorized. -/
def messageLogic.createMessage (db : DB) (ctx : Ctx) (text : String)
    (groupId : Nat) : Except JsErr (MessageRec × DB) := do
  let user ← getAuthenticatedUser ctx
  let group := getGroupsWhereId db user.id groupId
  if group.length != 0 then
    let m : MessageRec :=
      { id := db.nextMessageId, userId := user.id, groupId := groupId, text := text }
    .ok (m, { db with
                messages := db.messages ++ [m],
                nextMessageId := db.nextMessageId + 1 })
  else
    .error unauthorized

/-- groupLogic.createGroup: gate on an authenticated user, fetch the friend
rows whose ids are among the supplied userIds, Group.create, then addUsers
with the creator and those friends; the resolved group carries
`users = [user, ...friends]`. -/
def groupLogic.createGroup (db : DB) (ctx : Ctx) (name : String)
    (userIds : List Nat) : Except JsErr (GroupRec × List UserRec × DB) := do
  let user ← getAuthenticatedUser ctx
  let friends := getFriendsWhereIdIn db user.id userIds
  let group : GroupRec := { id := db.nextGroupId, name := name }
  let members := user :: friends
  .ok (group, members,
    { db with
        nextGroupId := db.nextGroupId + 1,
        groups := db.groups ++ [group],
        memberships := db.memberships ++ members.map (fun m => (m.id, group.id)) })

/-- groupLogic.deleteGroup: gate on an authenticated user, Group.findOne by id
including the caller among the members, then getUsers/removeUsers, destroy the
group messages and destroy the group.  A null findOne result is dereferenced
(`group.getUsers()` on null), raising a TypeError. -/
def groupLogic.deleteGroup (db : DB) (ctx : Ctx) (id : Nat) :
    Except JsErr (GroupRec × DB) := do
  let user ← getAuthenticatedUser ctx
  match findGroupWithUser db id user.id with
  | none => .error .typeError
  | some group =>
    let db1 := { db with
      memberships := db.memberships.filter (fun p => !(p.2 == group.id)) }
    let db2 := { db1 with
      messages := db1.messages.filter (fun m => !(m.groupId == group.id)) }
    .ok (group, { db2 with
      groups := db2.groups.filter (fun g => !(g.id == group.id)) })

/-- groupLogic.leaveGroup: gate on an authenticated user, Group.findOne by id
including the caller among the members, then removeUser and resolve with the
id.  On a null findOne result the inner reject of No group found is built but
not returned, so execution continues and `group.removeUser` dereferences null,
raising a TypeError. -/
def groupLogic.leaveGroup (db : DB) (ctx : Ctx) (id : Nat) :
    Except JsErr (Nat × DB) := do
  let user ← getAuthenticatedUser ctx
  match findGroupWithUser db id user.id with
  | none => .error .typeError
  | some group =>
    .ok (id, { db with
      memberships := db.memberships.filter
        (fun p => !(p.1 == user.id && p.2 == group.id)) })

/-- groupLogic.updateGroup: gate on an authenticated user, Group.findOne by id
including the caller among the members, then branch on the lastRead argument.
With a truthy lastRead the chain touches only the user (getLastRead,
removeLastRead, addLastRead) and finally resolves the found group as-is: the
group is never dereferenced, so a null findOne result resolves as null.  With
a falsy lastRead, `group.update(name)` dereferences the findOne result,
raising a TypeError when it is null. -/
def groupLogic.updateGroup (db : DB) (ctx : Ctx) (id : Nat)
    (name : Option String) (lastRead : Option Nat) :
    Except JsErr (Option GroupRec × DB) := do
  let user ← getAuthenticatedUser ctx
  let group := findGroupWithUser db id user.id
  if truthy lastRead then
    let db1 := { db with
      lastReads := db.lastReads.filter
        (fun p => !(p.1 == user.id && msgInGroup db p.2 id)) }
    .ok (group, { db1 with
      lastReads := db1.lastReads ++ [(user.id, lastRead.getD 0)] })
  else
    match group with
    | none => .error .typeError
    | some g =>
      let g2 : GroupRec := { g with name := name.getD g.name }
      .ok (some g2, { db with
        groups := db.groups.map (fun h => if h.id == g.id then g2 else h) })

/-- userLogic.email: self-access only; a caller whose id differs from the
entity id is rejected with Unauthorized, otherwise the current user email is
resolved. -/
def userLogic.email (user : UserRec) (ctx : Ctx) : Except JsErr String := do
  let currentUser ← getAuthenticatedUser ctx
  if currentUser.id == user.id then
    .ok currentUser.email
  else
    .error unauthorized

/-- userLogic.friends: self-access only; resolves user.getFriends. -/
def userLogic.friends (db : DB) (user : UserRec) (ctx : Ctx) :
    Except JsErr (List UserRec) := do
  let currentUser ← getAuthenticatedUser ctx
  if currentUser.id != user.id then
    .error unauthorized
  else
    .ok (getFriends db user.id)

/-- userLogic.groups: self-access only; resolves user.getGroups. -/
def userLogic.groups (db : DB) (user : UserRec) (ctx : Ctx) :
    Except JsErr (List GroupRec) := do
  let currentUser ← getAuthenticatedUser ctx
  if currentUser.id != user.id then
    .error unauthorized
  else
    .ok (getGroupsOf db user.id)

/-- userLogic.messages: self-access only; resolves Message.findAll by the
entity userId. -/
def userLogic.messages (db : DB) (user : UserRec) (ctx : Ctx) :
    Except JsErr (List MessageRec) := do
  let currentUser ← getAuthenticatedUser ctx
  if currentUser.id != user.id then
    .error unauthorized
  else
    .ok (getMessagesOfUser db user.id)

/-- userLogic.jwt: resolves the entity jwt attribute directly, consulting
neither the context nor any authorization predicate. -/
def userLogic.jwt (user : UserRec) (ctx : Ctx) : Except JsErr String :=
  .ok user.jwt

/-- subscriptionLogic.messageAdded: gate on an authenticated user, fetch the
user group rows whose ids are among args.groupIds, and reject with
Unauthorized when fewer rows match than ids were requested; otherwise the
subscription parameters resolve (baseParams gets the connection context). -/
def subscriptionLogic.messageAdded (db : DB) (ctx : Ctx)
    (groupIds : List Nat) : Except JsErr Unit := do
  let user ← getAuthenticatedUser ctx
  let groups := getGroupsWhereIdIn db user.id groupIds
  if groupIds.length > groups.length then
    .error unauthorized
  else
    .ok ()

/-! ## resolvers.js: the login mutation and the messageAdded delivery filter -/

/-- Mutation.login: User.findOne by email; an absent row rejects with the
message `email not found`; with a row, bcrypt.compare decides between minting
a token (jwt.sign of id, email, version) and rejecting with the message
`password incorrect`.  bcrypt.compare is the external hash comparison, passed
in as a function. -/
def login (compare : String → String → Bool) (db : DB)
    (email password : String) : Except JsErr (UserRec × Claims) :=
  match db.users.find? (fun u => u.email == email) with
  | some user =>
    if compare password user.password then
      .ok (user, mintClaims user)
    else
      .error (.rejection "password incorrect")
  | none => .error (.rejection "email not found")

/-- Array.prototype.indexOf: first index of x, or -1 when absent. -/
def indexOfJs (x : Nat) : List Nat → Int
  | [] => -1
  | y :: ys =>
    if y == x then 0
    else
      let r := indexOfJs x ys
      if r == -1 then -1 else r + 1

/-- The withFilter predicate of Subscription.messageAdded in resolvers.js:
Boolean of `args.groupIds` being present and the bitwise complement of
`args.groupIds.indexOf(payload.messageAdded.groupId)` being truthy, i.e. the
indexOf result differing from -1. -/
def messageAddedFilter (groupIds : Option (List Nat))
    (payloadGroupId : Nat) : Bool :=
  match groupIds with
  | none => false
  | some ids => !(indexOfJs payloadGroupId ids == -1)

/-- withFilter delivery: the published payload reaches the subscriber exactly
when the predicate holds; otherwise the event is dropped for that
subscriber. -/
def withFilterDeliver (groupIds : Option (List Nat)) (payload : MessageRec) :
    Option MessageRec :=
  if messageAddedFilter groupIds payload.groupId then some payload else none

/-! ## The ctx.user promise as a memoized cell

The graphqlExpress context builder starts a single `User.findOne` promise when
the context is constructed (or a promise already resolved with null when no
token was presented).  A JavaScript promise runs its executor once; every
subsequent `.then` reads the settled value without re-running the query.  The
cell below records the settled value together with the number of credential
store queries issued. -/

/-- The settled ctx.user promise: its value and how many credential-store
lookups were performed to produce it. -/
structure UserPromise where
  value : Option UserRec
  storeHits : Nat
deriving Repr, DecidableEq

/-- Context construction (step 7.2 as refined by 7.10): with a decoded token
the builder issues exactly one findOne against the store; without one it
resolves null with no store access. -/
def buildUserPromise (db : DB) (reqUser : Option Claims) : UserPromise :=
  match reqUser with
  | some c => { value := findByIdAndVersion db c.id c.version, storeHits := 1 }
  | none => { value := none, storeHits := 0 }

/-- Awaiting the settled promise (`ctx.user.then(...)`): yields the settled
value and leaves the cell unchanged — no further store access. -/
def awaitUser (p : UserPromise) : Option UserRec × UserPromise :=
  (p.value, p)

/-- Await the promise n times in sequence, collecting the observed values and
threading the cell. -/
def awaitUserTimes : Nat → UserPromise → List (Option UserRec) × UserPromise
  | 0, p => ([], p)
  | n + 1, p =>
    let r := awaitUser p
    let rest := awaitUserTimes n r.2
    (r.1 :: rest.1, rest.2)

/-- Did the promise chain fulfil (resolve) rather than reject. -/
def isOkB {α : Type} : Except JsErr α → Bool
  | .ok _ => true
  | .error _ => false

/-! ## Sample rows used to instantiate the theorems -/

/-- Sample user A (id 1). -/
def userA : UserRec :=
  { id := 1, email := "a@x.com", username := "a", password := "ha",
    version := 1, jwt := "ja" }

/-- Sample user B (id 2). -/
def userB : UserRec :=
  { id := 2, email := "b@x.com", username := "b", password := "hb",
    version := 1, jwt := "jb" }

/-- Sample store: group 1 with members A and B, group 2 with member B only;
A and B are friends. -/
def dbAB : DB :=
  { users := [userA, userB],
    groups := [{ id := 1, name := "g1" }, { id := 2, name := "g2" }],
    memberships := [(1, 1), (2, 1), (2, 2)],
    friendships := [(1, 2), (2, 1)],
    messages := [{ id := 1, userId := 2, groupId := 2, text := "hi" }],
    lastReads := [],
    nextGroupId := 3,
    nextMessageId := 2 }

/-! ## Helper lemmas -/

/-- After a password change, the lookup by the stale token claims finds no
row: the only user row with the token id now carries the incremented
version. -/
theorem findByIdAndVersion_increment (db : DB) (u : UserRec)
    (hmem : u ∈ db.users) (hnodup : (db.users.map UserRec.id).Nodup) :
    findByIdAndVersion (incrementVersion db u.id) u.id u.version = none := by
  unfold findByIdAndVersion incrementVersion
  rw [List.find?_eq_none]
  intro x hx
  simp only [List.mem_map] at hx
  obtain ⟨w, hw, rfl⟩ := hx
  by_cases h : w.id = u.id
  · have hwu : w = u := List.inj_on_of_nodup_map hnodup hw hmem h
    subst hwu
    simp [h]
  · simp [h]

/-- Reduction of a promise chain continuing from a fulfilled step. -/
theorem ok_bind {α β : Type} (a : α) (f : α → Except JsErr β) :
    (Except.ok a >>= f) = f a := rfl

/-- Reduction of a promise chain cut short by a rejection. -/
theorem error_bind {α β : Type} (e : JsErr) (f : α → Except JsErr β) :
    ((Except.error e : Except JsErr α) >>= f) = .error e := rfl

/-- Awaiting a settled promise any number of times observes the settled value
each time and leaves the cell untouched. -/
theorem awaitUserTimes_spec (n : Nat) (p : UserPromise) :
    awaitUserTimes n p = (List.replicate n p.value, p) := by
  induction n with
  | zero => rfl
  | succ n ih => simp [awaitUserTimes, awaitUser, ih, List.replicate_succ]

/-! ## Claim theorems -/

/-- C1: after an identity token-version is incremented (a password change),
a token minted beforehand resolves the request context user to none (the
lookup by id and token-version finds no row), and presenting it at streaming
connection establishment refuses the connection; the stale token is never
resolved to an identity. -/
theorem stale_token_is_never_resolved (db : DB) (u : UserRec)
    (hmem : u ∈ db.users) (hnodup : (db.users.map UserRec.id).Nodup) :
    (buildRequestContext (incrementVersion db u.id) (some (mintClaims u))).user
      = none ∧
    onConnect (incrementVersion db u.id) (some (mintClaims u))
      = .error "No User" := by
  have h := findByIdAndVersion_increment db u hmem hnodup
  constructor
  · simpa [buildRequestContext, mintClaims] using h
  · simp [onConnect, mintClaims, h]

/-- Witness for C1 at the sample store and user A. -/
theorem stale_token_is_never_resolved_witness :
    (buildRequestContext (incrementVersion dbAB userA.id)
        (some (mintClaims userA))).user = none ∧
    onConnect (incrementVersion dbAB userA.id) (some (mintClaims userA))
      = .error "No User" :=
  stale_token_is_never_resolved dbAB userA (by decide) (by decide)

/-- C8: the ctx.user accessor is memoized: within one request every await of
the context user promise observes the identical resolved value, and the
credential store is consulted at most once per request (exactly once when a
token was presented, never for anonymous requests), independently of how many
times the accessor is consulted. -/
theorem ctx_user_accessor_memoized (db : DB) (reqUser : Option Claims)
    (n : Nat) :
    (awaitUserTimes n (buildUserPromise db reqUser)).1
      = List.replicate n (buildUserPromise db reqUser).value ∧
    (awaitUserTimes n (buildUserPromise db reqUser)).2.storeHits
      = (buildUserPromise db reqUser).storeHits ∧
    (buildUserPromise db reqUser).storeHits ≤ 1 := by
  refine ⟨by simp [awaitUserTimes_spec], by simp [awaitUserTimes_spec], ?_⟩
  cases reqUser <;> simp [buildUserPromise]

/-- C10: userLogic.jwt performs no authentication or self-access check: it
resolves the entity jwt attribute for every context, anonymous ones and
callers with a different id included, and can never reject with Unauthorized
— unlike userLogic.email, which rejects those same contexts. -/
theorem jwt_field_has_no_auth_check (u cu : UserRec) (ctx : Ctx)
    (hne : cu.id ≠ u.id) :
    userLogic.jwt u ctx = .ok u.jwt ∧
    userLogic.jwt u { user := none } = .ok u.jwt ∧
    userLogic.jwt u { user := some cu } = .ok u.jwt ∧
    userLogic.email u { user := none } = .error unauthorized ∧
    userLogic.email u { user := some cu } = .error unauthorized := by
  refine ⟨rfl, rfl, rfl, rfl, ?_⟩
  simp [userLogic.email, getAuthenticatedUser, ok_bind, hne]

/-- Witness for C10: user B jwt resolves for user A context and for the
anonymous context, while the email field rejects both. -/
theorem jwt_field_has_no_auth_check_witness :
    userLogic.jwt userB { user := none } = .ok userB.jwt ∧
    userLogic.jwt userB { user := some userA } = .ok userB.jwt ∧
    userLogic.email userB { user := none } = .error unauthorized ∧
    userLogic.email userB { user := some userA } = .error unauthorized := by
  have h := jwt_field_has_no_auth_check userB userA { user := none }
    (by decide)
  exact ⟨h.2.1, h.2.2.1, h.2.2.2.1, h.2.2.2.2⟩

/-- indexOf yields -1 exactly for absent elements. -/
theorem indexOfJs_ge (x : Nat) (l : List Nat) : -1 ≤ indexOfJs x l := by
  induction l with
  | nil => simp [indexOfJs]
  | cons y ys ih =>
    simp only [indexOfJs]
    split
    · omega
    · split <;> omega

/-- indexOf equals -1 exactly when the element is absent. -/
theorem indexOfJs_eq_neg_one_iff (x : Nat) (l : List Nat) :
    indexOfJs x l = -1 ↔ x ∉ l := by
  induction l with
  | nil => simp [indexOfJs]
  | cons y ys ih =>
    have hge := indexOfJs_ge x ys
    by_cases h : y = x
    · simp [indexOfJs, h]
    · have hb : (y == x) = false := by simp [h]
      simp only [indexOfJs, hb, if_false, List.mem_cons]
      by_cases hr : indexOfJs x ys = -1
      · have hxy : ¬x = y := fun hh => h hh.symm
        simp [hr, ih.mp hr, hxy]
      · have hb2 : (indexOfJs x ys == (-1 : Int)) = false := by
          simpa using hr
        have : x ∈ ys := by
          by_contra hx
          exact hr (ih.mpr hx)
        simp [hb2, this]
        omega

/-- C5: the messageAdded delivery predicate returns true exactly when the
event payload groupId is among the group ids the subscriber requested at
subscription time, and the event reaches the subscriber exactly in that case
— when the predicate is false the event is not delivered. -/
theorem messageAdded_filter_exact (ids : List Nat) (gid : Nat)
    (payload : MessageRec) :
    (messageAddedFilter (some ids) gid = true ↔ gid ∈ ids) ∧
    withFilterDeliver (some ids) payload
      = (if payload.groupId ∈ ids then some payload else none) := by
  have key : ∀ g : Nat, messageAddedFilter (some ids) g = true ↔ g ∈ ids := by
    intro g
    simp [messageAddedFilter, indexOfJs_eq_neg_one_iff]
  constructor
  · exact key gid
  · by_cases h : payload.groupId ∈ ids
    · simp [withFilterDeliver, (key payload.groupId).mpr h, h]
    · have hfil : messageAddedFilter (some ids) payload.groupId = false := by
        simp [messageAddedFilter,
          (indexOfJs_eq_neg_one_iff payload.groupId ids).mpr h]
      simp [withFilterDeliver, hfil, h]

/-- C2: each self-access user field (email, friends, groups, messages)
rejects with Unauthorized when resolved on another user entity, and
resolves its value on the caller own entity. -/
theorem self_access_fields (db : DB) (cu target : UserRec)
    (hne : cu.id ≠ target.id) :
    userLogic.email target { user := some cu } = .error unauthorized ∧
    userLogic.friends db target { user := some cu } = .error unauthorized ∧
    userLogic.groups db target { user := some cu } = .error unauthorized ∧
    userLogic.messages db target { user := some cu } = .error unauthorized ∧
    userLogic.email cu { user := some cu } = .ok cu.email ∧
    userLogic.friends db cu { user := some cu } = .ok (getFriends db cu.id) ∧
    userLogic.groups db cu { user := some cu } = .ok (getGroupsOf db cu.id) ∧
    userLogic.messages db cu { user := some cu }
      = .ok (getMessagesOfUser db cu.id) := by
  refine ⟨?_, ?_, ?_, ?_, ?_, ?_, ?_, ?_⟩ <;>
    simp [userLogic.email, userLogic.friends, userLogic.groups,
      userLogic.messages, getAuthenticatedUser, ok_bind, hne]

/-- Witness for C2: user A context against user B entity and against
user A own entity, in the sample store. -/
theorem self_access_fields_witness :
    userLogic.email userB { user := some userA } = .error unauthorized ∧
    userLogic.friends dbAB userB { user := some userA }
      = .error unauthorized ∧
    userLogic.groups dbAB userB { user := some userA }
      = .error unauthorized ∧
    userLogic.messages dbAB userB { user := some userA }
      = .error unauthorized ∧
    userLogic.email userA { user := some userA } = .ok userA.email ∧
    userLogic.friends dbAB userA { user := some userA }
      = .ok (getFriends dbAB userA.id) ∧
    userLogic.groups dbAB userA { user := some userA }
      = .ok (getGroupsOf dbAB userA.id) ∧
    userLogic.messages dbAB userA { user := some userA }
      = .ok (getMessagesOfUser dbAB userA.id) :=
  self_access_fields dbAB userA userB (by decide)

/-- C6 counterexample: at a concrete store, login with an unknown email and
login with a known email but failing password comparison reject with
different messages, so the caller can tell the two failures apart — the
claimed indistinguishability fails. -/
theorem login_failures_distinguishable_counterexample :
    login (fun p h => p == h) dbAB "c@x.com" "ha"
      = .error (.rejection "email not found") ∧
    login (fun p h => p == h) dbAB "a@x.com" "wrong"
      = .error (.rejection "password incorrect") ∧
    JsErr.rejection "email not found" ≠ JsErr.rejection "password incorrect" :=
  ⟨rfl, rfl, by decide⟩

/-- C6 (amended): login rejects with the message email not found when the
email matches no stored identity, and with the distinct message password
incorrect when the identity exists but the password comparison fails; the
two rejection messages differ, so the two failure cases are distinguishable
by the caller. -/
theorem login_reports_distinct_failures (compare : String → String → Bool)
    (db : DB) (email pw : String) :
    (db.users.find? (fun u => u.email == email) = none →
      login compare db email pw = .error (.rejection "email not found")) ∧
    (∀ u, db.users.find? (fun u2 => u2.email == email) = some u →
      compare pw u.password = false →
      login compare db email pw = .error (.rejection "password incorrect")) ∧
    JsErr.rejection "email not found" ≠ JsErr.rejection "password incorrect" := by
  refine ⟨?_, ?_, by decide⟩
  · intro h
    simp [login, h]
  · intro u h hc
    simp [login, h, hc]

/-- Witness for the amended C6 at the sample store. -/
theorem login_reports_distinct_failures_witness :
    login (fun p h => p == h) dbAB "c@x.com" "pw"
      = .error (.rejection "email not found") ∧
    login (fun p h => p == h) dbAB "a@x.com" "bad"
      = .error (.rejection "password incorrect") :=
  ⟨(login_reports_distinct_failures (fun p h => p == h) dbAB "c@x.com" "pw").1
      (by decide),
   (login_reports_distinct_failures (fun p h => p == h) dbAB "a@x.com" "bad").2.1
      userA (by decide) (by decide)⟩

/-- C9: createGroup requires only a resolved identity (anonymous contexts are
rejected, any authenticated caller succeeds with no membership precondition),
and the created group member list is the creator together with exactly the
supplied ids that are friends of the creator; a supplied id that is neither a
friend nor the creator does not end up a member, and causes no error. -/
theorem createGroup_initial_members (db : DB) (cu : UserRec) (name : String)
    (userIds : List Nat) :
    groupLogic.createGroup db { user := none } name userIds
      = .error unauthorized ∧
    (∃ g db2,
      groupLogic.createGroup db { user := some cu } name userIds
        = .ok (g, cu :: getFriendsWhereIdIn db cu.id userIds, db2)) ∧
    (∀ v ∈ userIds, v ∉ (getFriends db cu.id).map UserRec.id → v ≠ cu.id →
      v ∉ (cu :: getFriendsWhereIdIn db cu.id userIds).map UserRec.id) := by
  refine ⟨rfl, ⟨_, _, rfl⟩, ?_⟩
  intro v hv hnf hne
  simp only [List.map_cons, List.mem_cons]
  rintro (h | h)
  · exact hne h
  · apply hnf
    simp only [List.mem_map] at h ⊢
    obtain ⟨u, hu, rfl⟩ := h
    refine ⟨u, ?_, rfl⟩
    simp only [getFriendsWhereIdIn, List.mem_filter, Bool.and_eq_true] at hu
    simp only [getFriends, List.mem_filter]
    exact ⟨hu.1, hu.2.1⟩

/-- Witness for C9: user A creates a group supplying ids 2 (a friend) and 3
(not a friend): the members are A and B, and 3 is not among them. -/
theorem createGroup_initial_members_witness :
    groupLogic.createGroup dbAB { user := none } "g" [2, 3]
      = .error unauthorized ∧
    (∃ g db2,
      groupLogic.createGroup dbAB { user := some userA } "g" [2, 3]
        = .ok (g, userA :: getFriendsWhereIdIn dbAB userA.id [2, 3], db2)) ∧
    (3 : Nat)
      ∉ (userA :: getFriendsWhereIdIn dbAB userA.id [2, 3]).map UserRec.id :=
  ⟨(createGroup_initial_members dbAB userA "g" [2, 3]).1,
   (createGroup_initial_members dbAB userA "g" [2, 3]).2.1,
   (createGroup_initial_members dbAB userA "g" [2, 3]).2.2 3
      (by decide) (by decide) (by decide)⟩

/-- C7: the code does not report an empty membership lookup as the single
Unauthorized/empty-result outcome the claim describes: for an authenticated
caller who is not a member (group 2) or where the group does not exist
(group 99), deleteGroup, leaveGroup and updateGroup dereference the null
findOne result and fail with a TypeError, an uncontrolled failure distinct
from Unauthorized (leaveGroup even builds a No group found rejection that is
never returned). -/
theorem group_mutation_null_crash :
    groupLogic.deleteGroup dbAB { user := some userA } 2 = .error .typeError ∧
    groupLogic.leaveGroup dbAB { user := some userA } 2 = .error .typeError ∧
    groupLogic.updateGroup dbAB { user := some userA } 2 (some "n") none
      = .error .typeError ∧
    groupLogic.deleteGroup dbAB { user := some userA } 99 = .error .typeError ∧
    groupLogic.leaveGroup dbAB { user := some userA } 99 = .error .typeError ∧
    groupLogic.updateGroup dbAB { user := some userA } 99 (some "n") none
      = .error .typeError ∧
    JsErr.typeError ≠ unauthorized :=
  ⟨rfl, rfl, rfl, rfl, rfl, rfl, by decide⟩

/-- The join-style findOne yields null exactly when the membership predicate
fails (group absent, or the caller not among its members). -/
theorem findGroupWithUser_none_iff (db : DB) (uid gid : Nat) :
    findGroupWithUser db gid uid = none ↔ isMember db uid gid = false := by
  unfold findGroupWithUser isMember
  rw [List.find?_eq_none, List.any_eq_false]

/-- The where-clause group lookup of createMessage is empty exactly when the
membership predicate fails. -/
theorem getGroupsWhereId_eq_nil_iff (db : DB) (uid gid : Nat) :
    getGroupsWhereId db uid gid = [] ↔ isMember db uid gid = false := by
  unfold getGroupsWhereId isMember
  rw [List.filter_eq_nil_iff, List.any_eq_false]
  constructor <;> intro h g hg hp <;>
    exact h g hg (by rw [Bool.and_comm]; exact hp)

/-- A member join-style findOne yields a row. -/
theorem findGroupWithUser_isSome_of_member (db : DB) (uid gid : Nat)
    (h : isMember db uid gid = true) :
    ∃ g, findGroupWithUser db gid uid = some g := by
  unfold isMember at h
  unfold findGroupWithUser
  exact Option.isSome_iff_exists.mp (List.find?_isSome.mpr (List.any_eq_true.mp h))

/-- Membership characterized through the rows of the store. -/
theorem isMember_true_iff (db : DB) (uid gid : Nat) :
    isMember db uid gid = true ↔
      ∃ g ∈ db.groups, g.id = gid ∧ (uid, g.id) ∈ db.memberships := by
  unfold isMember
  simp [List.any_eq_true, List.contains, List.elem_iff]

/-- The rows returned by the in-clause group lookup. -/
theorem mem_getGroupsWhereIdIn (db : DB) (uid : Nat) (ids : List Nat)
    (g : GroupRec) :
    g ∈ getGroupsWhereIdIn db uid ids ↔
      g ∈ db.groups ∧ (uid, g.id) ∈ db.memberships ∧ g.id ∈ ids := by
  unfold getGroupsWhereIdIn
  simp [List.mem_filter, List.contains, List.elem_iff, and_assoc]

/-- C4 counterexample: in the sample store, user A is a member of every id in
the requested list 1, 1, yet establishment rejects with Unauthorized, because
the code compares the count of requested ids against the count of distinct
matching group rows. -/
theorem messageAdded_duplicate_ids_counterexample :
    (∀ gid ∈ [1, 1], isMember dbAB userA.id gid = true) ∧
    subscriptionLogic.messageAdded dbAB { user := some userA } [1, 1]
      = .error unauthorized :=
  ⟨by decide, rfl⟩

/-- C4 (amended): establishing a messageAdded subscription whose requested
list contains a group id the caller is not a member of rejects with
Unauthorized (no subscription parameters are resolved); when the requested
ids are pairwise distinct and the caller is a member of every one of them,
establishment succeeds.  Distinctness is necessary: the code compares the
requested count against the count of distinct matching group rows, so a
duplicated id rejects even when membership holds. -/
theorem messageAdded_establishment (db : DB) (cu : UserRec)
    (groupIds : List Nat)
    (hnodupg : (db.groups.map GroupRec.id).Nodup) :
    ((∃ gid ∈ groupIds, isMember db cu.id gid = false) →
      subscriptionLogic.messageAdded db { user := some cu } groupIds
        = .error unauthorized) ∧
    (groupIds.Nodup →
      (∀ gid ∈ groupIds, isMember db cu.id gid = true) →
      subscriptionLogic.messageAdded db { user := some cu } groupIds
        = .ok ()) := by
  have hsubl : (getGroupsWhereIdIn db cu.id groupIds).Sublist db.groups := by
    unfold getGroupsWhereIdIn
    exact List.filter_sublist _
  have hFnodup : ((getGroupsWhereIdIn db cu.id groupIds).map GroupRec.id).Nodup :=
    List.Nodup.sublist (hsubl.map GroupRec.id) hnodupg
  have hred : subscriptionLogic.messageAdded db { user := some cu } groupIds
      = if groupIds.length > (getGroupsWhereIdIn db cu.id groupIds).length
        then .error unauthorized else .ok () := rfl
  constructor
  · rintro ⟨bad, hbadmem, hbad⟩
    have hnotmem : ¬∃ g ∈ db.groups, g.id = bad ∧ (cu.id, g.id) ∈ db.memberships := by
      rw [← isMember_true_iff]
      simp [hbad]
    have hsubset : (getGroupsWhereIdIn db cu.id groupIds).map GroupRec.id
        ⊆ groupIds.erase bad := by
      intro x hx
      obtain ⟨g, hgF, rfl⟩ := List.mem_map.mp hx
      obtain ⟨hg, hM, hids⟩ := (mem_getGroupsWhereIdIn db cu.id groupIds g).mp hgF
      have hne : g.id ≠ bad := by
        intro he
        exact hnotmem ⟨g, hg, he, hM⟩
      exact (List.mem_erase_of_ne hne).mpr hids
    have hlen : (getGroupsWhereIdIn db cu.id groupIds).length
        ≤ (groupIds.erase bad).length := by
      have := (List.subperm_of_subset hFnodup hsubset).length_le
      simpa using this
    have hlt : (getGroupsWhereIdIn db cu.id groupIds).length < groupIds.length := by
      have h1 : (groupIds.erase bad).length = groupIds.length - 1 :=
        List.length_erase_of_mem hbadmem
      have h2 : 0 < groupIds.length := List.length_pos_of_mem hbadmem
      omega
    rw [hred, if_pos hlt]
  · intro hnodup hall
    have hsubset : groupIds ⊆ (getGroupsWhereIdIn db cu.id groupIds).map GroupRec.id := by
      intro gid hgid
      obtain ⟨g, hg, hgeq, hM⟩ := (isMember_true_iff db cu.id gid).mp (hall gid hgid)
      refine List.mem_map.mpr ⟨g, ?_, hgeq⟩
      exact (mem_getGroupsWhereIdIn db cu.id groupIds g).mpr
        ⟨hg, hM, hgeq ▸ hgid⟩
    have hlen : groupIds.length ≤ (getGroupsWhereIdIn db cu.id groupIds).length := by
      have := (List.subperm_of_subset hnodup hsubset).length_le
      simpa using this
    rw [hred, if_neg (Nat.not_lt.mpr hlen)]

/-- Witness for the amended C4: in the sample store, user A requesting
groups 1 and 2 (A belongs only to group 1) is rejected with Unauthorized,
while requesting group 1 alone succeeds. -/
theorem messageAdded_establishment_witness :
    subscriptionLogic.messageAdded dbAB { user := some userA } [1, 2]
      = .error unauthorized ∧
    subscriptionLogic.messageAdded dbAB { user := some userA } [1]
      = .ok () :=
  ⟨(messageAdded_establishment dbAB userA [1, 2] (by decide)).1
      ⟨2, by decide, by decide⟩,
   (messageAdded_establishment dbAB userA [1] (by decide)).2
      (by decide) (by decide)⟩

/-- C3 counterexample: user A (authenticated, not a member of group 2)
invoking deleteGroup on group 2 does not fail with Unauthorized — the
outcome is a TypeError from dereferencing the null findOne result. -/
theorem nonmember_mutation_not_unauthorized_counterexample :
    groupLogic.deleteGroup dbAB { user := some userA } 2
      = .error JsErr.typeError ∧
    (Except.error JsErr.typeError : Except JsErr (GroupRec × DB))
      ≠ .error unauthorized :=
  ⟨rfl, by simp [unauthorized]⟩

/-- C3 (amended): for a non-member caller, createMessage rejects with
Unauthorized; deleteGroup and leaveGroup fail with a TypeError from
dereferencing the null membership lookup rather than with Unauthorized;
updateGroup with a falsy lastRead likewise fails with a TypeError, while
updateGroup with a truthy lastRead does not fail at all: it resolves with a
null group, after replacing the caller lastRead rows.  With a member context
every one of the mutations succeeds. -/
theorem group_scoped_mutations (db : DB) (cu : UserRec) (gid : Nat)
    (text newName : String) (lr : Nat) :
    (isMember db cu.id gid = false →
      messageLogic.createMessage db { user := some cu } text gid
        = .error unauthorized ∧
      groupLogic.deleteGroup db { user := some cu } gid
        = .error JsErr.typeError ∧
      groupLogic.leaveGroup db { user := some cu } gid
        = .error JsErr.typeError ∧
      groupLogic.updateGroup db { user := some cu } gid (some newName) none
        = .error JsErr.typeError ∧
      (lr ≠ 0 → ∃ db2,
        groupLogic.updateGroup db { user := some cu } gid (some newName)
          (some lr) = .ok (none, db2))) ∧
    (isMember db cu.id gid = true →
      isOkB (messageLogic.createMessage db { user := some cu } text gid)
        = true ∧
      isOkB (groupLogic.deleteGroup db { user := some cu } gid) = true ∧
      isOkB (groupLogic.leaveGroup db { user := some cu } gid) = true ∧
      isOkB (groupLogic.updateGroup db { user := some cu } gid
        (some newName) none) = true ∧
      (lr ≠ 0 →
        isOkB (groupLogic.updateGroup db { user := some cu } gid
          (some newName) (some lr)) = true)) := by
  constructor
  · intro h
    have hnil := (getGroupsWhereId_eq_nil_iff db cu.id gid).mpr h
    have hnone := (findGroupWithUser_none_iff db cu.id gid).mpr h
    refine ⟨?_, ?_, ?_, ?_, ?_⟩
    · simp [messageLogic.createMessage, getAuthenticatedUser, ok_bind, hnil]
    · simp [groupLogic.deleteGroup, getAuthenticatedUser, ok_bind, hnone]
    · simp [groupLogic.leaveGroup, getAuthenticatedUser, ok_bind, hnone]
    · simp [groupLogic.updateGroup, getAuthenticatedUser, ok_bind, hnone, truthy]
    · intro hlr
      have htr : truthy (some lr) = true := by simp [truthy, hlr]
      simp only [groupLogic.updateGroup, getAuthenticatedUser, ok_bind, hnone,
        htr, if_true]
      exact ⟨_, rfl⟩
  · intro h
    obtain ⟨g, hsome⟩ := findGroupWithUser_isSome_of_member db cu.id gid h
    have hne : getGroupsWhereId db cu.id gid ≠ [] := by
      intro hnil
      rw [getGroupsWhereId_eq_nil_iff db cu.id gid] at hnil
      rw [h] at hnil
      exact absurd hnil (by decide)
    refine ⟨?_, ?_, ?_, ?_, ?_⟩
    · have hlen : ((getGroupsWhereId db cu.id gid).length != 0) = true := by
        simp only [bne_iff_ne, ne_eq]
        exact fun hz => hne (List.eq_nil_of_length_eq_zero hz)
      simp only [messageLogic.createMessage, getAuthenticatedUser, ok_bind, hlen,
        if_true]
      rfl
    · simp only [groupLogic.deleteGroup, getAuthenticatedUser, ok_bind, hsome]
      rfl
    · simp only [groupLogic.leaveGroup, getAuthenticatedUser, ok_bind, hsome]
      rfl
    · simp only [groupLogic.updateGroup, getAuthenticatedUser, ok_bind, hsome,
        truthy]
      rfl
    · intro hlr
      have htr : truthy (some lr) = true := by simp [truthy, hlr]
      simp only [groupLogic.updateGroup, getAuthenticatedUser, ok_bind, htr,
        if_true]
      rfl

/-- Witness for the amended C3: in the sample store, user A is a member of
group 1 and not of group 2. -/
theorem group_scoped_mutations_witness :
    (messageLogic.createMessage dbAB { user := some userA } "hi" 2
        = .error unauthorized ∧
      groupLogic.deleteGroup dbAB { user := some userA } 2
        = .error JsErr.typeError ∧
      groupLogic.leaveGroup dbAB { user := some userA } 2
        = .error JsErr.typeError ∧
      groupLogic.updateGroup dbAB { user := some userA } 2 (some "n") none
        = .error JsErr.typeError ∧
      (∃ db2, groupLogic.updateGroup dbAB { user := some userA } 2 (some "n")
        (some 1) = .ok (none, db2))) ∧
    (isOkB (messageLogic.createMessage dbAB { user := some userA } "hi" 1)
        = true ∧
      isOkB (groupLogic.deleteGroup dbAB { user := some userA } 1) = true ∧
      isOkB (groupLogic.leaveGroup dbAB { user := some userA } 1) = true ∧
      isOkB (groupLogic.updateGroup dbAB { user := some userA } 1
        (some "n") none) = true ∧
      isOkB (groupLogic.updateGroup dbAB { user := some userA } 1
        (some "n") (some 1)) = true) := by
  have hn := (group_scoped_mutations dbAB userA 2 "hi" "n" 1).1 (by decide)
  have hm := (group_scoped_mutations dbAB userA 1 "hi" "n" 1).2 (by decide)
  exact ⟨⟨hn.1, hn.2.1, hn.2.2.1, hn.2.2.2.1, hn.2.2.2.2 (by decide)⟩,
    ⟨hm.1, hm.2.1, hm.2.2.1, hm.2.2.2.1, hm.2.2.2.2 (by decide)⟩⟩

end Chatty
